import Mathlib

/-!
Verification of the wine-pairing-suggestions caching and quota pipeline.

The Go sources embed as follows:
* the in-process map-backed store (`cache.memory`, map[string]string) is an
  association list `Store` with overwrite-on-insert semantics;
* the networked store (`cache.redis`) is an association list `TStore` whose
  entries carry an optional expiry instant, read relative to a clock `now`;
  network failures of the backend are injected as explicit parameters;
* a cache-aside compute callback (`cache.Resolver`) is a function from the
  store to a result and an updated store, because the real callbacks reach
  back into the same cache (quota decrement);
* fallible Go functions return `Except String`.
-/

namespace WinePairing

/-- The in-process backing container: `map[string]string` of `cache.memory`,
as an association list. Insert overwrites any previous binding of the key. -/
abbrev Store := List (String × String)

/-- Map lookup: the value bound to `key`, if any. -/
def findKey? : Store → String → Option String
  | [], _ => none
  | (k, v) :: rest, key => if k = key then some v else findKey? rest key

/-- Map assignment `m[key] = val`: overwrite-on-insert. -/
def insertKey (s : Store) (key val : String) : Store :=
  (key, val) :: s.filter (fun p => p.1 != key)

/-- How many entries of the store bind `key` (Go maps bind each key once). -/
def countKey (s : Store) (key : String) : Nat :=
  (s.filter (fun p => p.1 == key)).length

/-- A cache-miss compute callback (`cache.Resolver`); it may read and write
the shared cache itself, so it threads the store. -/
abbrev Resolver := Store → Except String String × Store

/-- `memory.Get`: cache-aside resolve on the in-process store. On a hit the
stored value is returned and the callback is not run; on a miss the callback
runs and, on success, its value is stored under `key` and returned. -/
def memGet (s : Store) (key : String) (onMiss : Resolver) :
    Except String String × Store :=
  match findKey? s key with
  | some hit => (Except.ok hit, s)
  | none =>
    match onMiss s with
    | (Except.error e, s1) =>
      (Except.error ("unable to resolve cache miss: " ++ e), s1)
    | (Except.ok val, s1) => (Except.ok val, insertKey s1 key val)

/-- `memory.Set`: unconditional upsert. -/
def memSet (s : Store) (key val : String) : Store := insertKey s key val

/-- `memory.SetEx`: the in-process store delegates to `Set`, dropping the
`seconds` argument entirely. -/
def memSetEx (s : Store) (key val : String) (seconds : Nat) : Store :=
  memSet s key val

/-- Drop the first occurrence of `c` from a character list
(`strings.Replace(pattern, "*", "", 1)`). -/
def removeFirstChar : List Char → Char → List Char
  | [], _ => []
  | x :: xs, c => if x = c then xs else x :: removeFirstChar xs c

/-- `strings.HasPrefix` on character lists. -/
def strStartsWith : List Char → List Char → Bool
  | [], _ => true
  | _ :: _, [] => false
  | a :: as, b :: bs => a == b && strStartsWith as bs

/-- `memory.GetKeys`: strip the first `*` from the pattern and return the keys
with the remaining string as a prefix. -/
def memGetKeys (s : Store) (pat : String) : List String :=
  let search := removeFirstChar pat.toList '*'
  (s.map (fun p => p.1)).filter (fun k => strStartsWith search k.toList)

/-- The networked (Redis) backing store: entries carry the value and an
optional absolute expiry instant. -/
abbrev TStore := List (String × String × Option Nat)

/-- Redis lookup at instant `now`: an entry whose expiry has passed reads as
absent. -/
def tFindKey? : TStore → Nat → String → Option String
  | [], _, _ => none
  | (k, v, exp) :: rest, now, key =>
    if k = key then
      match exp with
      | none => some v
      | some t => if now < t then some v else none
    else tFindKey? rest now key

/-- Redis write of `key` to `val` with expiry instant `exp`. -/
def tInsertKey (b : TStore) (key val : String) (exp : Option Nat) : TStore :=
  (key, val, exp) :: b.filter (fun p => p.1 != key)

/-- `redis.SetEx`: `conn.Set(ctx, key, val, seconds * time.Second)`; a zero
duration means no expiry, otherwise the entry expires `seconds` from `now`. -/
def redisSetEx (b : TStore) (now : Nat) (key val : String) (seconds : Nat) :
    TStore :=
  tInsertKey b key val (if seconds = 0 then none else some (now + seconds))

/-- `redis.Set`: delegates to `SetEx` with 0 seconds (no expiry). -/
def redisSet (b : TStore) (now : Nat) (key val : String) : TStore :=
  redisSetEx b now key val 0

/-- A compute callback running against the networked store. -/
abbrev TResolver := TStore → Except String String × TStore

/-- `redis.Get`: cache-aside resolve on the networked store. `getErr` injects
a backend failure of the initial fetch, `setErr` a failure of the write-back;
per the source, a write-back failure is logged and swallowed, so the computed
value is still returned without error. -/
def redisGet (b : TStore) (now : Nat) (getErr setErr : Option String)
    (key : String) (onMiss : TResolver) : Except String String × TStore :=
  match getErr with
  | some e => (Except.error ("unable to fetch from Redis: " ++ e), b)
  | none =>
    match tFindKey? b now key with
    | some hit => (Except.ok hit, b)
    | none =>
      match onMiss b with
      | (Except.error e, b1) =>
        (Except.error ("unable to resolve cache miss: " ++ e), b1)
      | (Except.ok val, b1) =>
        match setErr with
        | some _ => (Except.ok val, b1)
        | none => (Except.ok val, redisSet b1 now key val)

/-- `redis.GetKeys`: glob scan over unexpired keys; with the trailing-star
patterns the callers use, this is the prefix scan of the in-process store. -/
def redisGetKeys (b : TStore) (now : Nat) (pat : String) : List String :=
  let search := removeFirstChar pat.toList '*'
  (b.filter (fun p =>
      match p.2.2 with
      | none => true
      | some t => now < t)).map (fun p => p.1)
    |>.filter (fun k => strStartsWith search k.toList)

/-- Modelled from the spec: the KeyValueStore operation
`setIfAbsent(key, value, ttlSeconds) -> bool` of section 4.1 — "succeeds only
if key did not already exist (or had expired); used to provision quotas
exactly once." The `cache.SetNx` implementation the webapp and mcp handlers
call is not among the provided source files. The in-process container drops
TTLs, so `ttlSeconds` is accepted and dropped here as `SetEx` does. -/
def cacheSetNx (s : Store) (key val : String) (ttlSeconds : Nat) :
    Bool × Store :=
  match findKey? s key with
  | some _ => (false, s)
  | none => (true, insertKey s key val)

/-- Decimal digit accumulation for `parseInt?`. -/
def parseDecAux : List Char → Nat → Option Nat
  | [], acc => some acc
  | c :: cs, acc =>
    if 48 ≤ c.toNat ∧ c.toNat ≤ 57 then
      parseDecAux cs (acc * 10 + (c.toNat - 48))
    else none

/-- Parse a decimal integer string, with an optional leading minus sign. -/
def parseInt? (s : String) : Option Int :=
  match s.toList with
  | [] => none
  | '-' :: cs =>
    match cs with
    | [] => none
    | _ => (parseDecAux cs 0).map (fun n => -(n : Int))
  | cs => (parseDecAux cs 0).map (fun n => (n : Int))

/-- Modelled from the spec: the KeyValueStore operation
`decrement(key) -> newValue` of section 4.1 — "atomic integer decrement of a
numeric string value; fails if the key does not exist or is not numeric." The
`cache.Decr` implementation the handlers call is not among the provided
source files. -/
def cacheDecr (s : Store) (key : String) : Except String (Int × Store) :=
  match findKey? s key with
  | none => Except.error "key does not exist"
  | some v =>
    match parseInt? v with
    | none => Except.error "value is not numeric"
    | some n => Except.ok (n - 1, insertKey s key (toString (n - 1)))

/-- The handlers call `wa.cache.Decr(...)` discarding its results, so a
failed decrement leaves the store as it was. -/
def decrIgnored (s : Store) (key : String) : Store :=
  match cacheDecr s key with
  | Except.error _ => s
  | Except.ok (_, s1) => s1

/-- `sessionQuotaKey`: the quota record key for an account. -/
def sessionQuotaKey (accountID : String) : String := "quotas:" ++ accountID

/-- `maxQuota`: the default quota maximum. -/
def maxQuota : Nat := 10

/-- `maxQuotaLifespanSeconds`: the quota record lifespan. -/
def maxQuotaLifespanSeconds : Nat := 60 * 60 * 24 * 7

/-- The quota block of the `withAccountDetails` middleware: read
`quotas:<accountID>` through the cache-aside resolver with a callback that
always fails (a quota is expected to exist); if that errors, be generous —
conditionally write the default maximum with the default lifespan and use
it. -/
def withAccountDetailsQuota (s : Store) (accountID : String) :
    String × Store :=
  match memGet s ("quotas:" ++ accountID)
      (fun st => (Except.error "expected quota in quotas cache", st)) with
  | (Except.ok q, s1) => (q, s1)
  | (Except.error _, s1) =>
    let qs := toString maxQuota
    (qs, (cacheSetNx s1 ("quotas:" ++ accountID) qs maxQuotaLifespanSeconds).2)

/-- The quota provisioning line of `PostOauthResponse`: set the maximum quota
if not already set. -/
def provisionOnLogin (s : Store) (accountID : String) : Store :=
  (cacheSetNx s ("quotas:" ++ accountID) (toString maxQuota)
    maxQuotaLifespanSeconds).2

/-- `PostCreateRecipe` (webapp): derive raw → parsed → summarized for the
identifier `u`, each stage one cache-aside resolve. The external
collaborators — the page fetch, the HTML-to-markdown conversion, and the
summarizing model (whose initialization may itself fail) — are parameters. -/
def postCreateRecipe (s : Store) (u : String)
    (fetchRaw : Except String String)
    (markdownOf : String → Except String String)
    (modelInit : Except String (String → Except String String)) :
    Except String String × Store :=
  if u = "" then (Except.error "URL required", s)
  else
    match memGet s ("recipes:raw:" ++ u) (fun st => (fetchRaw, st)) with
    | (Except.error e, s1) => (Except.error ("unable to fetch raw: " ++ e), s1)
    | (Except.ok raw, s1) =>
      match memGet s1 ("recipes:parsed:" ++ u)
          (fun st => (markdownOf raw, st)) with
      | (Except.error e, s2) =>
        (Except.error ("unable to get content from page: " ++ e), s2)
      | (Except.ok md, s2) =>
        match modelInit with
        | Except.error e =>
          (Except.error ("unable to initialize model: " ++ e), s2)
        | Except.ok model =>
          match memGet s2 ("recipes:summarized:" ++ u)
              (fun st => (model md, st)) with
          | (Except.error e, s3) =>
            (Except.error ("unable to summarize recipe contents: " ++ e), s3)
          | (Except.ok summary, s3) => (Except.ok summary, s3)

/-- `GetRecipeWineSuggestions` (webapp): resolve the summary with a callback
that always fails (the summary must already be cached by
`PostCreateRecipe`), initialize the model, then resolve
`recipes:suggestions-json:<u>`; the miss callback decrements the session
account's quota (result discarded) and only then invokes the model for
pairing suggestions. `sessionAccount` is the session context value. -/
def getRecipeWineSuggestions (s : Store) (u : String)
    (sessionAccount : Option String)
    (modelInit : Except String (String → Except String String)) :
    Except String String × Store :=
  if u = "" then (Except.error "URL required", s)
  else
    match memGet s ("recipes:summarized:" ++ u)
        (fun st =>
          (Except.error "expected a summary to be generated before this call",
            st)) with
    | (Except.error e, s1) =>
      (Except.error ("unable to load summary: " ++ e), s1)
    | (Except.ok summary, s1) =>
      match modelInit with
      | Except.error e =>
        (Except.error ("unable to initialize model: " ++ e), s1)
      | Except.ok model =>
        match memGet s1 ("recipes:suggestions-json:" ++ u)
            (fun st =>
              match sessionAccount with
              | some a => (model summary, decrIgnored st (sessionQuotaKey a))
              | none => (Except.error "unexpected session context type", st)) with
        | (Except.error e, s2) =>
          (Except.error
            ("unable to get wine suggestions from the model: " ++ e), s2)
        | (Except.ok suggestions, s2) => (Except.ok suggestions, s2)

/-- The first non-whitespace run of a character list (the regex atom after
the recognized URL scheme; cache keys contain no whitespace, so it reaches
the end of the key). -/
def takeNonSpace (cs : List Char) : List Char :=
  cs.takeWhile (fun c => !c.isWhitespace)

/-- One attempted match of `recentSuggestionRx` at the head of `cs`: the
alternatives of the pattern are a scheme (the optional `s` taken greedily)
or `www.`, each followed by at least one non-whitespace character. -/
def urlMatchAt (cs : List Char) : Option (List Char) :=
  if strStartsWith ("https://".toList) cs then
    match takeNonSpace (cs.drop 8) with
    | [] => none
    | tail => some (cs.take 8 ++ tail)
  else if strStartsWith ("http://".toList) cs then
    match takeNonSpace (cs.drop 7) with
    | [] => none
    | tail => some (cs.take 7 ++ tail)
  else if strStartsWith ("www.".toList) cs then
    match takeNonSpace (cs.drop 4) with
    | [] => none
    | tail => some (cs.take 4 ++ tail)
  else none

/-- `recentSuggestionRx.FindString`: the leftmost match of
`https?://\S+|www\.\S+`, or the empty string when there is none. -/
def findUrl : List Char → String
  | [] => ""
  | c :: rest =>
    match urlMatchAt (c :: rest) with
    | some m => String.mk m
    | none => findUrl rest

/-- The key scan and identifier extraction both recent-suggestions handlers
share: list the cached suggestion keys and extract the embedded URL from
each. -/
def recentUrlsOf (s : Store) : List String :=
  (memGetKeys s "recipes:suggestions-json:*").map (fun k => findUrl k.toList)

/-- The tail of the webapp `GetRecentSuggestions` handler after the shuffle:
`urls[0:3]` on a Go slice built by appends panics when fewer than three
identifiers exist (capacity below 3), modelled as `none`; otherwise the
first three are returned. -/
def webappRecentOutput (shuffled : List String) : Option (List String) :=
  if shuffled.length < 3 then none else some (shuffled.take 3)

/-- The tail of the mcp `GetRecentSuggestions` handler after the shuffle:
the count is clamped to the number of identifiers, then `urls[0:count]`. -/
def mcpRecentOutput (shuffled : List String) : List String :=
  shuffled.take (min 3 shuffled.length)

/-! Helper lemmas about the store operations and the cache keys. -/

theorem find?_insert_self (s : Store) (k v : String) :
    findKey? (insertKey s k v) k = some v := by
  simp [insertKey, findKey?]

theorem find?_filter_ne (s : Store) (k key : String) (h : key ≠ k) :
    findKey? (s.filter (fun p => p.1 != k)) key = findKey? s key := by
  induction s with
  | nil => rfl
  | cons p rest ih =>
    obtain ⟨pk, pv⟩ := p
    by_cases hp : pk = k
    · have hk : ¬ (k = key) := fun he => h he.symm
      simp [List.filter_cons, hp, findKey?, hk, ih]
    · simp [List.filter_cons, hp, findKey?, ih]

theorem find?_insert_ne (s : Store) (k v key : String) (h : key ≠ k) :
    findKey? (insertKey s k v) key = findKey? s key := by
  have hk : k ≠ key := fun he => h he.symm
  simp [insertKey, findKey?, hk, find?_filter_ne s k key h]

theorem filter_beq_filter_bne (s : Store) (k : String) :
    (s.filter (fun p => p.1 != k)).filter (fun p => p.1 == k) = [] := by
  induction s with
  | nil => rfl
  | cons p rest ih =>
    obtain ⟨pk, pv⟩ := p
    by_cases hp : pk = k
    · simp [List.filter_cons, hp, ih]
    · simp [List.filter_cons, hp, ih]

theorem countKey_insert_self (s : Store) (k v : String) :
    countKey (insertKey s k v) k = 1 := by
  simp [insertKey, countKey, List.filter_cons, filter_beq_filter_bne]

theorem memGet_hit {s : Store} {key v : String} (h : findKey? s key = some v)
    (onMiss : Resolver) : memGet s key onMiss = (Except.ok v, s) := by
  simp [memGet, h]

theorem memGet_miss_ok {s s1 : Store} {key val : String} {onMiss : Resolver}
    (h : findKey? s key = none) (hc : onMiss s = (Except.ok val, s1)) :
    memGet s key onMiss = (Except.ok val, insertKey s1 key val) := by
  simp [memGet, h, hc]

theorem memGet_miss_err {s s1 : Store} {key e : String} {onMiss : Resolver}
    (h : findKey? s key = none) (hc : onMiss s = (Except.error e, s1)) :
    memGet s key onMiss =
      (Except.error ("unable to resolve cache miss: " ++ e), s1) := by
  simp [memGet, h, hc]

theorem redisGet_hit {b : TStore} {now : Nat} {key v : String}
    (h : tFindKey? b now key = some v) (setErr : Option String)
    (onMiss : TResolver) :
    redisGet b now none setErr key onMiss = (Except.ok v, b) := by
  simp [redisGet, h]

theorem redisGet_miss_err {b b1 : TStore} {now : Nat} {key e : String}
    {onMiss : TResolver} (h : tFindKey? b now key = none)
    (hc : onMiss b = (Except.error e, b1)) (setErr : Option String) :
    redisGet b now none setErr key onMiss =
      (Except.error ("unable to resolve cache miss: " ++ e), b1) := by
  simp [redisGet, h, hc]

theorem append_ne_of_length_ne {a b : String} (h : a.length ≠ b.length)
    (x : String) : a ++ x ≠ b ++ x := by
  intro he
  apply h
  have h2 := congrArg String.length he
  rw [String.length_append, String.length_append] at h2
  omega

theorem append_ne_of_first_char {a b : String} {c d : Char}
    {as bs : List Char} (ha : a.data = c :: as) (hb : b.data = d :: bs)
    (hcd : c ≠ d) (x y : String) : a ++ x ≠ b ++ y := by
  intro h
  have h2 := congrArg String.data h
  rw [String.data_append, String.data_append, ha, hb] at h2
  simp only [List.cons_append] at h2
  injection h2 with h3 _
  exact hcd h3

theorem quotas_ne_suggestions (x y : String) :
    "quotas:" ++ x ≠ "recipes:suggestions-json:" ++ y :=
  append_ne_of_first_char (c := 'q') (d := 'r') rfl rfl (by decide) x y

theorem quotas_ne_summarized (x y : String) :
    "quotas:" ++ x ≠ "recipes:summarized:" ++ y :=
  append_ne_of_first_char (c := 'q') (d := 'r') rfl rfl (by decide) x y

theorem summarized_ne_suggestions (u : String) :
    "recipes:summarized:" ++ u ≠ "recipes:suggestions-json:" ++ u :=
  append_ne_of_length_ne (by decide) u

theorem raw_ne_parsed (u : String) :
    "recipes:raw:" ++ u ≠ "recipes:parsed:" ++ u :=
  append_ne_of_length_ne (by decide) u

theorem raw_ne_summarized (u : String) :
    "recipes:raw:" ++ u ≠ "recipes:summarized:" ++ u :=
  append_ne_of_length_ne (by decide) u

theorem parsed_ne_summarized (u : String) :
    "recipes:parsed:" ++ u ≠ "recipes:summarized:" ++ u :=
  append_ne_of_length_ne (by decide) u

/-- C4: for a key absent from the store and a failing compute, `Get`
propagates the error and writes nothing of its own — the resulting store is
exactly the callback's resulting store, and with an effect-free failing
callback the key is still absent afterward (so a later resolve retries the
miss) — in both the in-memory and the networked resolver. -/
theorem resolve_no_caching_on_failure
    (s s1 : Store) (key e : String) (onMiss : Resolver)
    (b b1 : TStore) (now : Nat) (onMissT : TResolver)
    (hs : findKey? s key = none) (hc : onMiss s = (Except.error e, s1))
    (hb : tFindKey? b now key = none)
    (hcT : onMissT b = (Except.error e, b1)) :
    memGet s key onMiss =
      (Except.error ("unable to resolve cache miss: " ++ e), s1) ∧
    redisGet b now none none key onMissT =
      (Except.error ("unable to resolve cache miss: " ++ e), b1) ∧
    findKey? (memGet s key (fun st => (Except.error e, st))).2 key = none ∧
    tFindKey?
      (redisGet b now none none key (fun st => (Except.error e, st))).2
      now key = none := by
  refine ⟨memGet_miss_err hs hc, redisGet_miss_err hb hcT none, ?_, ?_⟩
  · rw [memGet_miss_err hs rfl]
    exact hs
  · rw [redisGet_miss_err hb rfl none]
    exact hb

theorem resolve_no_caching_on_failure_witness :
    memGet [] "k" (fun st => (Except.error "boom", st)) =
      (Except.error ("unable to resolve cache miss: " ++ "boom"),
        ([] : Store)) ∧
    findKey? (memGet [] "k" (fun st => (Except.error "boom", st))).2 "k" =
      none :=
  ⟨(resolve_no_caching_on_failure [] [] "k" "boom"
      (fun st => (Except.error "boom", st)) [] [] 0
      (fun st => (Except.error "boom", st)) rfl rfl rfl rfl).1,
   (resolve_no_caching_on_failure [] [] "k" "boom"
      (fun st => (Except.error "boom", st)) [] [] 0
      (fun st => (Except.error "boom", st)) rfl rfl rfl rfl).2.2.1⟩

/-- C5: for a key bound to `v`, every resolve — with any compute callback,
failing ones included — returns `v` and leaves the store unchanged (so the
callback is observably never invoked), repeatedly, in both the in-memory and
the networked resolver. -/
theorem resolve_idempotent_hit
    (s : Store) (key v : String) (onMiss onMiss2 : Resolver)
    (b : TStore) (now : Nat) (onMissT : TResolver)
    (hs : findKey? s key = some v) (hb : tFindKey? b now key = some v) :
    memGet s key onMiss = (Except.ok v, s) ∧
    memGet (memGet s key onMiss).2 key onMiss2 = (Except.ok v, s) ∧
    redisGet b now none none key onMissT = (Except.ok v, b) := by
  have h1 := memGet_hit hs onMiss
  refine ⟨h1, ?_, redisGet_hit hb none onMissT⟩
  rw [h1]
  exact memGet_hit hs onMiss2

theorem resolve_idempotent_hit_witness :
    memGet [("k", "v")] "k" (fun st => (Except.error "boom", st)) =
      (Except.ok "v", [("k", "v")]) ∧
    redisGet [("k", "v", none)] 0 none none "k"
      (fun st => (Except.error "boom", st)) =
      (Except.ok "v", [("k", "v", none)]) :=
  ⟨(resolve_idempotent_hit [("k", "v")] "k" "v"
      (fun st => (Except.error "boom", st))
      (fun st => (Except.error "boom", st)) [("k", "v", none)] 0
      (fun st => (Except.error "boom", st)) rfl rfl).1,
   (resolve_idempotent_hit [("k", "v")] "k" "v"
      (fun st => (Except.error "boom", st))
      (fun st => (Except.error "boom", st)) [("k", "v", none)] 0
      (fun st => (Except.error "boom", st)) rfl rfl).2.2⟩

/-- C10: in the networked resolver, when the key is absent and the compute
succeeds but the backend write-back fails, the computed value is returned
with no error — indistinguishable from the successful-write outcome — and
the key may remain absent afterward. -/
theorem redis_write_failure_swallowed
    (b b1 : TStore) (now : Nat) (key val e2 : String) (onMiss : TResolver)
    (hb : tFindKey? b now key = none)
    (hc : onMiss b = (Except.ok val, b1)) :
    redisGet b now none (some e2) key onMiss = (Except.ok val, b1) ∧
    (redisGet b now none (some e2) key onMiss).1 =
      (redisGet b now none none key onMiss).1 ∧
    (tFindKey? b1 now key = none →
      tFindKey? (redisGet b now none (some e2) key onMiss).2 now key =
        none) := by
  have h1 : redisGet b now none (some e2) key onMiss =
      (Except.ok val, b1) := by
    simp [redisGet, hb, hc]
  refine ⟨h1, ?_, ?_⟩
  · simp [redisGet, hb, hc]
  · intro hk
    rw [h1]
    exact hk

/-- Follows the spec's words (section 4.1): `set(key, value, ttlSeconds)` is
an unconditional upsert, `ttlSeconds = 0` means no expiry, and both
implementations must behave identically — so a positive `ttlSeconds` makes
the entry absent once it elapses. Stated over the timed store so the two
implementations can be compared against it. -/
def specSetEx (b : TStore) (now : Nat) (key val : String)
    (ttlSeconds : Nat) : TStore :=
  tInsertKey b key val
    (if ttlSeconds = 0 then none else some (now + ttlSeconds))

/-- C7 counterexample: after `SetEx "k" "v" 5`, the networked store reads
the key as absent once 5 seconds have elapsed, while the in-process store —
whose `SetEx` drops the seconds argument — still returns the value, so the
two implementations do not behave identically under a positive TTL. -/
theorem setex_ttl_divergence_counterexample :
    findKey? (memSetEx [] "k" "v" 5) "k" = some "v" ∧
    tFindKey? (redisSetEx [] 0 "k" "v" 5) 5 "k" = none ∧
    tFindKey? (specSetEx [] 0 "k" "v" 5) 5 "k" = none := by
  exact ⟨rfl, rfl, rfl⟩

/-- C7 amended: `ttlSeconds = 0` means no expiry in both implementations,
and the networked store follows the contract for positive TTLs — present
strictly before the expiry instant, absent from it on — but the in-process
`SetEx` ignores `ttlSeconds` entirely (it delegates to `Set`), so its entry
never expires and the two implementations do not behave identically under a
positive TTL. -/
theorem setex_ttl_amended (b : TStore) (m : Store) (now t sec : Nat)
    (k v : String) (hsec : 0 < sec) :
    tFindKey? (redisSetEx b now k v sec) t k =
      (if t < now + sec then some v else none) ∧
    redisSetEx b now k v sec = specSetEx b now k v sec ∧
    tFindKey? (redisSetEx b now k v 0) t k = some v ∧
    memSetEx m k v sec = memSet m k v ∧
    findKey? (memSetEx m k v sec) k = some v := by
  refine ⟨?_, rfl, ?_, rfl, ?_⟩
  · simp [redisSetEx, tInsertKey, tFindKey?, Nat.pos_iff_ne_zero.mp hsec]
  · simp [redisSetEx, tInsertKey, tFindKey?]
  · exact find?_insert_self m k v

theorem setex_ttl_amended_witness :
    tFindKey? (redisSetEx [] 2 "k" "v" 5) 7 "k" =
      (if 7 < 2 + 5 then some "v" else none) ∧
    findKey? (memSetEx [] "k" "v" 5) "k" = some "v" :=
  ⟨(setex_ttl_amended [] [] 2 7 5 "k" "v" (by decide)).1,
   (setex_ttl_amended [] [] 2 7 5 "k" "v" (by decide)).2.2.2.2⟩

theorem redis_write_failure_swallowed_witness :
    redisGet [] 0 none (some "conn reset") "k"
      (fun st => (Except.ok "v", st)) = (Except.ok "v", ([] : TStore)) ∧
    tFindKey?
      (redisGet [] 0 none (some "conn reset") "k"
        (fun st => (Except.ok "v", st))).2 0 "k" = none :=
  ⟨(redis_write_failure_swallowed [] [] 0 "k" "v" "conn reset"
      (fun st => (Except.ok "v", st)) rfl rfl).1,
   (redis_write_failure_swallowed [] [] 0 "k" "v" "conn reset"
      (fun st => (Except.ok "v", st)) rfl rfl).2.2 rfl⟩

/-- C6: at a store holding exactly two cached suggestion artifacts, the
webapp recent-suggestions handler evaluates `urls[0:3]` on a 2-element,
2-capacity slice and panics (modelled as `none`) instead of returning the
two identifiers, while the mcp handler clamps the count and returns both
identifiers, each one extracted from a key present in the scan. -/
theorem recent_sampling_panics_on_small_cache :
    webappRecentOutput (recentUrlsOf
      [("recipes:suggestions-json:https://a.test/x", "1"),
       ("recipes:suggestions-json:https://b.test/y", "2")]) = none ∧
    mcpRecentOutput (recentUrlsOf
      [("recipes:suggestions-json:https://a.test/x", "1"),
       ("recipes:suggestions-json:https://b.test/y", "2")]) =
      ["https://a.test/x", "https://b.test/y"] ∧
    (mcpRecentOutput (recentUrlsOf
      [("recipes:suggestions-json:https://a.test/x", "1"),
       ("recipes:suggestions-json:https://b.test/y", "2")])).length ≤ 3 ∧
    (mcpRecentOutput (recentUrlsOf
      [("recipes:suggestions-json:https://a.test/x", "1"),
       ("recipes:suggestions-json:https://b.test/y", "2")])).all
      (fun url =>
        (memGetKeys
          [("recipes:suggestions-json:https://a.test/x", "1"),
           ("recipes:suggestions-json:https://b.test/y", "2")]
          "recipes:suggestions-json:*").any
          (fun k2 => url == findUrl k2.toList)) = true := by
  exact ⟨rfl, rfl, by decide, by decide⟩

/-- C8: for an account with no quota record, the account-details middleware
provisions `quotas:<a>` by a conditional set-if-absent of the default
maximum `maxQuota = 10` with lifespan `maxQuotaLifespanSeconds = 604800`;
exactly one record results, a second call is a no-op, a record already
present — whatever its remaining value — is never reset, and the login-time
provisioning write is likewise idempotent. -/
theorem quota_provisioning_exactly_once
    (s s2 : Store) (a v : String)
    (h : findKey? s ("quotas:" ++ a) = none)
    (h2 : findKey? s2 ("quotas:" ++ a) = some v) :
    withAccountDetailsQuota s a =
      (toString maxQuota, insertKey s ("quotas:" ++ a) (toString maxQuota)) ∧
    findKey? (withAccountDetailsQuota s a).2 ("quotas:" ++ a) =
      some (toString maxQuota) ∧
    countKey (withAccountDetailsQuota s a).2 ("quotas:" ++ a) = 1 ∧
    withAccountDetailsQuota (withAccountDetailsQuota s a).2 a =
      (toString maxQuota, (withAccountDetailsQuota s a).2) ∧
    withAccountDetailsQuota s2 a = (v, s2) ∧
    findKey? (provisionOnLogin s a) ("quotas:" ++ a) =
      some (toString maxQuota) ∧
    countKey (provisionOnLogin s a) ("quotas:" ++ a) = 1 ∧
    provisionOnLogin (provisionOnLogin s a) a = provisionOnLogin s a ∧
    maxQuota = 10 ∧ maxQuotaLifespanSeconds = 604800 := by
  have hmiss : withAccountDetailsQuota s a =
      (toString maxQuota,
        insertKey s ("quotas:" ++ a) (toString maxQuota)) := by
    simp [withAccountDetailsQuota, memGet, h, cacheSetNx]
  have hfind : findKey? (withAccountDetailsQuota s a).2 ("quotas:" ++ a) =
      some (toString maxQuota) := by
    rw [hmiss]
    exact find?_insert_self s ("quotas:" ++ a) (toString maxQuota)
  have hhit : ∀ (s3 : Store) (v3 : String),
      findKey? s3 ("quotas:" ++ a) = some v3 →
      withAccountDetailsQuota s3 a = (v3, s3) := by
    intro s3 v3 h3
    simp [withAccountDetailsQuota, memGet, h3]
  have hlogin : provisionOnLogin s a =
      insertKey s ("quotas:" ++ a) (toString maxQuota) := by
    simp [provisionOnLogin, cacheSetNx, h]
  refine ⟨hmiss, hfind, ?_, ?_, hhit s2 v h2, ?_, ?_, ?_, rfl, rfl⟩
  · rw [hmiss]
    exact countKey_insert_self s ("quotas:" ++ a) (toString maxQuota)
  · exact hhit _ _ hfind
  · rw [hlogin]
    exact find?_insert_self s ("quotas:" ++ a) (toString maxQuota)
  · rw [hlogin]
    exact countKey_insert_self s ("quotas:" ++ a) (toString maxQuota)
  · rw [hlogin]
    simp [provisionOnLogin, cacheSetNx,
      find?_insert_self s ("quotas:" ++ a) (toString maxQuota)]

theorem quota_provisioning_exactly_once_witness :
    withAccountDetailsQuota [] "A" =
      (toString maxQuota, insertKey [] ("quotas:" ++ "A")
        (toString maxQuota)) ∧
    withAccountDetailsQuota [("quotas:A", "7")] "A" =
      ("7", [("quotas:A", "7")]) :=
  ⟨(quota_provisioning_exactly_once [] [("quotas:A", "7")] "A" "7"
      rfl rfl).1,
   (quota_provisioning_exactly_once [] [("quotas:A", "7")] "A" "7"
      rfl rfl).2.2.2.2.1⟩

theorem grws_hit (s : Store) (u sumv sv : String)
    (acc : Option String) (model : String → Except String String)
    (hu : u ≠ "")
    (hsum : findKey? s ("recipes:summarized:" ++ u) = some sumv)
    (hsv : findKey? s ("recipes:suggestions-json:" ++ u) = some sv) :
    getRecipeWineSuggestions s u acc (Except.ok model) =
      (Except.ok sv, s) := by
  simp [getRecipeWineSuggestions, hu, memGet, hsum, hsv]

theorem grws_miss_ok (s : Store) (u a sumv qs out : String) (q : Int)
    (model : String → Except String String)
    (hu : u ≠ "")
    (hsum : findKey? s ("recipes:summarized:" ++ u) = some sumv)
    (hmiss : findKey? s ("recipes:suggestions-json:" ++ u) = none)
    (hq : findKey? s ("quotas:" ++ a) = some qs)
    (hqs : parseInt? qs = some q)
    (hm : model sumv = Except.ok out) :
    getRecipeWineSuggestions s u (some a) (Except.ok model) =
      (Except.ok out,
        insertKey (insertKey s ("quotas:" ++ a) (toString (q - 1)))
          ("recipes:suggestions-json:" ++ u) out) := by
  simp [getRecipeWineSuggestions, hu, memGet, hsum, hmiss, hm,
    decrIgnored, cacheDecr, sessionQuotaKey, hq, hqs]

/-- C2: with the summary cached, resolving the suggestions stage on a cache
hit returns the cached value and leaves the whole store — the quota record
included — unchanged; a genuine miss whose compute succeeds decreases the
account's quota by exactly 1 (the decrement runs inside the miss callback),
stores the suggestions, and changes no other key. -/
theorem suggestions_quota_frame
    (s : Store) (u a sumv : String) (model : String → Except String String)
    (hu : u ≠ "")
    (hsum : findKey? s ("recipes:summarized:" ++ u) = some sumv) :
    (∀ sv, findKey? s ("recipes:suggestions-json:" ++ u) = some sv →
      getRecipeWineSuggestions s u (some a) (Except.ok model) =
        (Except.ok sv, s)) ∧
    (∀ qs q out,
      findKey? s ("recipes:suggestions-json:" ++ u) = none →
      findKey? s ("quotas:" ++ a) = some qs →
      parseInt? qs = some q →
      model sumv = Except.ok out →
      (getRecipeWineSuggestions s u (some a) (Except.ok model)).1 =
        Except.ok out ∧
      findKey? (getRecipeWineSuggestions s u (some a)
        (Except.ok model)).2 ("quotas:" ++ a) = some (toString (q - 1)) ∧
      findKey? (getRecipeWineSuggestions s u (some a)
        (Except.ok model)).2 ("recipes:suggestions-json:" ++ u) =
        some out ∧
      (∀ k2, k2 ≠ "quotas:" ++ a → k2 ≠ "recipes:suggestions-json:" ++ u →
        findKey? (getRecipeWineSuggestions s u (some a)
          (Except.ok model)).2 k2 = findKey? s k2)) := by
  constructor
  · intro sv hsv
    exact grws_hit s u sumv sv (some a) model hu hsum hsv
  · intro qs q out hmiss hq hqs hm
    have he := grws_miss_ok s u a sumv qs out q model hu hsum hmiss hq hqs hm
    rw [he]
    refine ⟨rfl, ?_, ?_, ?_⟩
    · rw [find?_insert_ne _ _ _ _ (quotas_ne_suggestions a u)]
      exact find?_insert_self s ("quotas:" ++ a) (toString (q - 1))
    · exact find?_insert_self _ ("recipes:suggestions-json:" ++ u) out
    · intro k2 hk2q hk2s
      rw [find?_insert_ne _ _ _ _ hk2s, find?_insert_ne _ _ _ _ hk2q]

theorem suggestions_quota_frame_witness :
    getRecipeWineSuggestions
      [("recipes:summarized:https://x.test/r", "SUM"),
       ("recipes:suggestions-json:https://x.test/r", "CACHED")]
      "https://x.test/r" (some "A")
      (Except.ok (fun _ => Except.error "would charge")) =
      (Except.ok "CACHED",
        [("recipes:summarized:https://x.test/r", "SUM"),
         ("recipes:suggestions-json:https://x.test/r", "CACHED")]) ∧
    findKey?
      (getRecipeWineSuggestions
        [("recipes:summarized:https://x.test/r", "SUM"),
         ("quotas:A", "10")]
        "https://x.test/r" (some "A")
        (Except.ok (fun _ => Except.ok "[SUG]"))).2 "quotas:A" =
      some (toString ((10 : Int) - 1)) :=
  ⟨(suggestions_quota_frame
      [("recipes:summarized:https://x.test/r", "SUM"),
       ("recipes:suggestions-json:https://x.test/r", "CACHED")]
      "https://x.test/r" "A" "SUM"
      (fun _ => Except.error "would charge") (by decide) rfl).1
      "CACHED" rfl,
   ((suggestions_quota_frame
      [("recipes:summarized:https://x.test/r", "SUM"),
       ("quotas:A", "10")]
      "https://x.test/r" "A" "SUM"
      (fun _ => Except.ok "[SUG]") (by decide) rfl).2
      "10" 10 "[SUG]" rfl rfl rfl rfl).2.1⟩

/-- C3 counterexample: with the summary cached, no suggestions cached, and
quota 10, a suggestions resolve whose model call fails returns an error —
yet the quota now reads 9: the decrement ran before the failing model call,
so the quota after the failed resolve does not equal the quota before it. -/
theorem quota_charged_on_failed_compute_counterexample :
    findKey? [("recipes:summarized:https://x.test/r", "SUM"),
      ("quotas:A", "10")] "quotas:A" = some "10" ∧
    (getRecipeWineSuggestions
      [("recipes:summarized:https://x.test/r", "SUM"), ("quotas:A", "10")]
      "https://x.test/r" (some "A")
      (Except.ok (fun _ => Except.error "model unavailable"))).1 =
      Except.error ("unable to get wine suggestions from the model: " ++
        ("unable to resolve cache miss: " ++ "model unavailable")) ∧
    findKey? (getRecipeWineSuggestions
      [("recipes:summarized:https://x.test/r", "SUM"), ("quotas:A", "10")]
      "https://x.test/r" (some "A")
      (Except.ok (fun _ => Except.error "model unavailable"))).2
      "quotas:A" = some "9" := by
  exact ⟨rfl, rfl, rfl⟩

/-- C3 amended: on a suggestions-json miss, the quota decrement precedes the
model invocation, so a compute that fails at the model call still leaves the
quota decremented by exactly 1 (and nothing cached under the suggestions
key); the quota is left unchanged only when the callback fails before the
decrement, that is, when no session account id is available. -/
theorem quota_charged_on_failed_compute
    (s : Store) (u a sumv qs e : String) (q : Int)
    (model : String → Except String String)
    (hu : u ≠ "")
    (hsum : findKey? s ("recipes:summarized:" ++ u) = some sumv)
    (hmiss : findKey? s ("recipes:suggestions-json:" ++ u) = none)
    (hq : findKey? s ("quotas:" ++ a) = some qs)
    (hqs : parseInt? qs = some q)
    (hm : model sumv = Except.error e) :
    getRecipeWineSuggestions s u (some a) (Except.ok model) =
      (Except.error ("unable to get wine suggestions from the model: " ++
        ("unable to resolve cache miss: " ++ e)),
        insertKey s ("quotas:" ++ a) (toString (q - 1))) ∧
    findKey? (getRecipeWineSuggestions s u (some a)
      (Except.ok model)).2 ("quotas:" ++ a) = some (toString (q - 1)) ∧
    findKey? (getRecipeWineSuggestions s u (some a)
      (Except.ok model)).2 ("recipes:suggestions-json:" ++ u) = none ∧
    getRecipeWineSuggestions s u none (Except.ok model) =
      (Except.error ("unable to get wine suggestions from the model: " ++
        ("unable to resolve cache miss: " ++
          "unexpected session context type")), s) := by
  have he : getRecipeWineSuggestions s u (some a) (Except.ok model) =
      (Except.error ("unable to get wine suggestions from the model: " ++
        ("unable to resolve cache miss: " ++ e)),
        insertKey s ("quotas:" ++ a) (toString (q - 1))) := by
    simp [getRecipeWineSuggestions, hu, memGet, hsum, hmiss, hm,
      decrIgnored, cacheDecr, sessionQuotaKey, hq, hqs]
  refine ⟨he, ?_, ?_, ?_⟩
  · rw [he]
    exact find?_insert_self s ("quotas:" ++ a) (toString (q - 1))
  · rw [he]
    show findKey? (insertKey s ("quotas:" ++ a) (toString (q - 1)))
      ("recipes:suggestions-json:" ++ u) = none
    rw [find?_insert_ne _ _ _ _
      (fun h2 => quotas_ne_suggestions a u h2.symm)]
    exact hmiss
  · simp [getRecipeWineSuggestions, hu, memGet, hsum, hmiss]

theorem quota_charged_on_failed_compute_witness :
    getRecipeWineSuggestions
      [("recipes:summarized:https://x.test/r", "SUM"), ("quotas:A", "10")]
      "https://x.test/r" (some "A")
      (Except.ok (fun _ => Except.error "model unavailable")) =
      (Except.error ("unable to get wine suggestions from the model: " ++
        ("unable to resolve cache miss: " ++ "model unavailable")),
        insertKey
          [("recipes:summarized:https://x.test/r", "SUM"),
           ("quotas:A", "10")]
          ("quotas:" ++ "A") (toString ((10 : Int) - 1))) :=
  (quota_charged_on_failed_compute
    [("recipes:summarized:https://x.test/r", "SUM"), ("quotas:A", "10")]
    "https://x.test/r" "A" "SUM" "10" "model unavailable" 10
    (fun _ => Except.error "model unavailable")
    (by decide) rfl rfl rfl rfl rfl).1

/-- C1 counterexample: on an empty store, requesting the suggestions
artifact before `summarized:<id>` exists does not trigger derivation of any
upstream stage: the handler fails with a load-summary error and the store
still has no raw, parsed, summarized, or suggestions-json entry. -/
theorem pipeline_dependency_counterexample :
    getRecipeWineSuggestions ([] : Store) "https://x.test/r" (some "A")
      (Except.ok (fun _ => Except.ok "[SUG]")) =
      (Except.error ("unable to load summary: " ++
        ("unable to resolve cache miss: " ++
          "expected a summary to be generated before this call")),
        ([] : Store)) ∧
    findKey? (getRecipeWineSuggestions ([] : Store) "https://x.test/r"
      (some "A") (Except.ok (fun _ => Except.ok "[SUG]"))).2
      "recipes:raw:https://x.test/r" = none ∧
    findKey? (getRecipeWineSuggestions ([] : Store) "https://x.test/r"
      (some "A") (Except.ok (fun _ => Except.ok "[SUG]"))).2
      "recipes:parsed:https://x.test/r" = none ∧
    findKey? (getRecipeWineSuggestions ([] : Store) "https://x.test/r"
      (some "A") (Except.ok (fun _ => Except.ok "[SUG]"))).2
      "recipes:summarized:https://x.test/r" = none ∧
    findKey? (getRecipeWineSuggestions ([] : Store) "https://x.test/r"
      (some "A") (Except.ok (fun _ => Except.ok "[SUG]"))).2
      "recipes:suggestions-json:https://x.test/r" = none := by
  exact ⟨rfl, rfl, rfl, rfl, rfl⟩

/-- C1 amended: a suggestions request made before `summarized:<id>` exists
is rejected with a load-summary error and derives nothing (the store is
unchanged). The upstream stages are derived in order raw → parsed →
summarized by the separate create-recipe request, and the suggestions stage
by the suggestions request once the summary exists; if the `raw:<id>` fetch
fails, no raw, parsed, summarized, or suggestions-json entry is created. -/
theorem pipeline_dependency_amended (s : Store) (u : String) (hu : u ≠ "") :
    (∀ (acc : Option String)
        (mi : Except String (String → Except String String)),
      findKey? s ("recipes:summarized:" ++ u) = none →
      getRecipeWineSuggestions s u acc mi =
        (Except.error ("unable to load summary: " ++
          ("unable to resolve cache miss: " ++
            "expected a summary to be generated before this call")), s)) ∧
    (∀ (raw md sy : String) (markdownOf : String → Except String String)
        (model : String → Except String String),
      findKey? s ("recipes:raw:" ++ u) = none →
      findKey? s ("recipes:parsed:" ++ u) = none →
      findKey? s ("recipes:summarized:" ++ u) = none →
      markdownOf raw = Except.ok md →
      model md = Except.ok sy →
      (postCreateRecipe s u (Except.ok raw) markdownOf
        (Except.ok model)).1 = Except.ok sy ∧
      findKey? (postCreateRecipe s u (Except.ok raw) markdownOf
        (Except.ok model)).2 ("recipes:raw:" ++ u) = some raw ∧
      findKey? (postCreateRecipe s u (Except.ok raw) markdownOf
        (Except.ok model)).2 ("recipes:parsed:" ++ u) = some md ∧
      findKey? (postCreateRecipe s u (Except.ok raw) markdownOf
        (Except.ok model)).2 ("recipes:summarized:" ++ u) = some sy) ∧
    (∀ (e : String) (markdownOf : String → Except String String)
        (mi : Except String (String → Except String String)),
      findKey? s ("recipes:raw:" ++ u) = none →
      postCreateRecipe s u (Except.error e) markdownOf mi =
        (Except.error ("unable to fetch raw: " ++
          ("unable to resolve cache miss: " ++ e)), s)) ∧
    (∀ (a sumv out : String) (model : String → Except String String),
      findKey? s ("recipes:summarized:" ++ u) = some sumv →
      findKey? s ("recipes:suggestions-json:" ++ u) = none →
      model sumv = Except.ok out →
      findKey? (getRecipeWineSuggestions s u (some a)
        (Except.ok model)).2 ("recipes:suggestions-json:" ++ u) =
        some out) := by
  refine ⟨?_, ?_, ?_, ?_⟩
  · intro acc mi hnone
    simp [getRecipeWineSuggestions, hu, memGet, hnone]
  · intro raw md sy markdownOf model hraw hparsed hsumm hmd hsy
    have h1 : findKey? (insertKey s ("recipes:raw:" ++ u) raw)
        ("recipes:parsed:" ++ u) = none := by
      rw [find?_insert_ne _ _ _ _ (fun h2 => raw_ne_parsed u h2.symm)]
      exact hparsed
    have h2 : findKey?
        (insertKey (insertKey s ("recipes:raw:" ++ u) raw)
          ("recipes:parsed:" ++ u) md) ("recipes:summarized:" ++ u) =
        none := by
      rw [find?_insert_ne _ _ _ _ (fun h3 => parsed_ne_summarized u h3.symm),
        find?_insert_ne _ _ _ _ (fun h3 => raw_ne_summarized u h3.symm)]
      exact hsumm
    have he : postCreateRecipe s u (Except.ok raw) markdownOf
        (Except.ok model) =
        (Except.ok sy,
          insertKey (insertKey (insertKey s ("recipes:raw:" ++ u) raw)
            ("recipes:parsed:" ++ u) md) ("recipes:summarized:" ++ u)
            sy) := by
      simp [postCreateRecipe, hu, memGet, hraw, h1, h2, hmd, hsy]
    rw [he]
    refine ⟨rfl, ?_, ?_, find?_insert_self _ _ _⟩
    · rw [find?_insert_ne _ _ _ _ (raw_ne_summarized u),
        find?_insert_ne _ _ _ _ (raw_ne_parsed u)]
      exact find?_insert_self s ("recipes:raw:" ++ u) raw
    · rw [find?_insert_ne _ _ _ _ (parsed_ne_summarized u)]
      exact find?_insert_self _ ("recipes:parsed:" ++ u) md
  · intro e markdownOf mi hraw
    simp [postCreateRecipe, hu, memGet, hraw]
  · intro a sumv out model hsum hmiss hm
    simp only [getRecipeWineSuggestions, hu, if_neg hu, memGet, hsum,
      hmiss, hm]
    exact find?_insert_self _ ("recipes:suggestions-json:" ++ u) out

theorem pipeline_dependency_amended_witness :
    getRecipeWineSuggestions ([] : Store) "https://x.test/r" (some "A")
      (Except.ok (fun _ => Except.ok "[SUG]")) =
      (Except.error ("unable to load summary: " ++
        ("unable to resolve cache miss: " ++
          "expected a summary to be generated before this call")),
        ([] : Store)) ∧
    (postCreateRecipe ([] : Store) "https://x.test/r" (Except.ok "RAW")
      (fun _ => Except.ok "MD")
      (Except.ok (fun _ => Except.ok "SUM"))).1 = Except.ok "SUM" ∧
    postCreateRecipe ([] : Store) "https://x.test/r"
      (Except.error "connection refused") (fun _ => Except.ok "MD")
      (Except.ok (fun _ => Except.ok "SUM")) =
      (Except.error ("unable to fetch raw: " ++
        ("unable to resolve cache miss: " ++ "connection refused")),
        ([] : Store)) :=
  ⟨(pipeline_dependency_amended [] "https://x.test/r" (by decide)).1
      (some "A") (Except.ok (fun _ => Except.ok "[SUG]")) rfl,
   ((pipeline_dependency_amended [] "https://x.test/r" (by decide)).2.1
      "RAW" "MD" "SUM" (fun _ => Except.ok "MD")
      (fun _ => Except.ok "SUM") rfl rfl rfl rfl rfl).1,
   (pipeline_dependency_amended [] "https://x.test/r" (by decide)).2.2.1
      "connection refused" (fun _ => Except.ok "MD")
      (Except.ok (fun _ => Except.ok "SUM")) rfl⟩

end WinePairing
